import Mathlib

/-!
Shallow embedding of the shape-puzzle component (three near-duplicate LWC
variants of a `Container` class plus a `Shape` leaf component).

The puzzle data model: a grid of pieces, each with a ground-truth shape
`value`, a user-facing `selectedValue`, a `revealed` flag, coordinates
offset by the number of shapes (the hint band), and a string `key` derived
from the coordinates.  Hints tally, per row/column and per shape, how many
pieces carry that shape.

Randomness (`Math.random()` draws for the revealed flag and the shape of
each piece) is modelled by explicit oracles `reveal : Nat → Bool` and
`shapeAt : Nat → Shape` indexed by the piece's linear index.  JS string
templates that are stripped of all whitespace are modelled as the stripped
concatenation.
-/

/-- Source: `type Shape = 'circle' | 'square' | 'triangle'`. -/
inductive Shape where
  | circle
  | square
  | triangle
deriving DecidableEq, Repr

/-- Source: `type SelectableValues = '' | Shape`; `none` is the empty string. -/
abbrev SelectableValues := Option Shape

/-- Source: `const SHAPES: Array<Shape> = ['circle', 'square', 'triangle']`. -/
def SHAPES : List Shape := [Shape.circle, Shape.square, Shape.triangle]

/-- Source: `const SELECTABLE_VALUES = ['', ...SHAPES]`. -/
def SELECTABLE_VALUES : List SelectableValues := none :: SHAPES.map some

/-- Source: `interface Coordinates { column: number; row: number }` (grid positions
are non-negative integers). -/
structure Coordinates where
  column : Nat
  row : Nat
deriving DecidableEq, Repr

/-! Decimal representation of `Nat`

`stringifyCoordinates` builds piece/hint keys out of `Nat.repr`; the key
claims need `Nat.repr` to be injective and its characters to be decimal
digits.  `natDigits` is the fuel-free form of core's `Nat.toDigitsCore`. -/

/-- The decimal digit characters of `n`, most significant first. -/
def natDigits (n : Nat) : List Char :=
  if n < 10 then [Nat.digitChar n]
  else natDigits (n / 10) ++ [Nat.digitChar (n % 10)]
termination_by n
decreasing_by exact Nat.div_lt_self (by omega) (by omega)

theorem toDigitsCore_eq_natDigits (fuel : Nat) :
    ∀ (n : Nat) (ds : List Char), n < fuel →
      Nat.toDigitsCore 10 fuel n ds = natDigits n ++ ds := by
  induction fuel with
  | zero => intro n ds h; omega
  | succ f ih =>
    intro n ds h
    by_cases h10 : n < 10
    · have hdiv : n / 10 = 0 := Nat.div_eq_of_lt h10
      simp only [Nat.toDigitsCore, hdiv, if_pos]
      rw [natDigits]
      simp [h10, Nat.mod_eq_of_lt h10]
    · have hdiv : ¬ n / 10 = 0 := by
        intro h0
        have hdm := Nat.div_add_mod n 10
        have hmod := Nat.mod_lt n (show 0 < 10 by omega)
        omega
      have hlt : n / 10 < f := by
        have h1 : n / 10 < n := Nat.div_lt_self (by omega) (by omega)
        omega
      have hunfold : natDigits n = natDigits (n / 10) ++ [Nat.digitChar (n % 10)] := by
        rw [natDigits]
        simp [h10]
      simp only [Nat.toDigitsCore, hdiv, if_neg, not_false_iff]
      rw [ih (n / 10) _ hlt, hunfold]
      simp

theorem repr_data_eq_natDigits (n : Nat) : (Nat.repr n).data = natDigits n := by
  show ((Nat.toDigits 10 n).asString).data = natDigits n
  rw [Nat.toDigits, toDigitsCore_eq_natDigits (n + 1) n [] (Nat.lt_succ_self n)]
  simp [List.asString]

theorem digitChar_toNat (d : Nat) (h : d < 10) : (Nat.digitChar d).toNat = 48 + d := by
  interval_cases d <;> rfl

theorem digitChar_not_punct (d : Nat) (h : d < 10) :
    Nat.digitChar d ≠ ',' ∧ Nat.digitChar d ≠ ']' ∧ Nat.digitChar d ≠ '[' := by
  interval_cases d <;> refine ⟨by decide, by decide, by decide⟩

theorem mem_natDigits (c : Char) (n : Nat) (h : c ∈ natDigits n) :
    ∃ d, d < 10 ∧ c = Nat.digitChar d := by
  induction n using Nat.strong_induction_on with
  | _ n ih =>
    by_cases h10 : n < 10
    · rw [natDigits] at h
      simp only [h10, if_pos, List.mem_singleton] at h
      exact ⟨n, h10, h⟩
    · rw [natDigits] at h
      simp only [h10, if_neg, not_false_iff, List.mem_append, List.mem_singleton] at h
      rcases h with h | h
      · exact ih (n / 10) (Nat.div_lt_self (by omega) (by omega)) h
      · exact ⟨n % 10, Nat.mod_lt _ (by omega), h⟩

theorem natDigits_no_comma (n : Nat) : ',' ∉ natDigits n := by
  intro hmem
  obtain ⟨d, hd, hc⟩ := mem_natDigits ',' n hmem
  exact (digitChar_not_punct d hd).1 hc.symm

theorem foldl_natDigits (n : Nat) :
    ∀ acc : Nat,
      (natDigits n).foldl (fun a c => 10 * a + (c.toNat - 48)) acc
        = acc * 10 ^ (natDigits n).length + n := by
  induction n using Nat.strong_induction_on with
  | _ n ih =>
    intro acc
    by_cases h10 : n < 10
    · rw [natDigits]
      simp only [h10, if_pos, List.foldl_cons, List.foldl_nil, List.length_singleton]
      rw [digitChar_toNat n h10]
      omega
    · rw [natDigits]
      simp only [h10, if_neg, not_false_iff, List.foldl_append, List.foldl_cons,
        List.foldl_nil, List.length_append, List.length_singleton]
      rw [ih (n / 10) (Nat.div_lt_self (by omega) (by omega)) acc]
      rw [digitChar_toNat (n % 10) (Nat.mod_lt _ (by omega))]
      have hmod : n % 10 + 48 - 48 = n % 10 := by omega
      have hpow : 10 ^ ((natDigits (n / 10)).length + 1)
          = 10 ^ (natDigits (n / 10)).length * 10 := by ring
      rw [hpow]
      have hdm : 10 * (n / 10) + n % 10 = n := by omega
      calc 10 * (acc * 10 ^ (natDigits (n / 10)).length + n / 10) + (48 + n % 10 - 48)
          = acc * (10 ^ (natDigits (n / 10)).length * 10) + (10 * (n / 10) + n % 10) := by
            ring_nf; omega
        _ = acc * (10 ^ (natDigits (n / 10)).length * 10) + n := by rw [hdm]

theorem natDigits_injective : Function.Injective natDigits := by
  intro m n h
  have hm := foldl_natDigits m 0
  have hn := foldl_natDigits n 0
  rw [h] at hm
  rw [hm] at hn
  omega

theorem natRepr_injective : Function.Injective Nat.repr := by
  intro m n h
  apply natDigits_injective
  rw [← repr_data_eq_natDigits, ← repr_data_eq_natDigits, h]

theorem append_comma_inj :
    ∀ (xs xs' ys ys' : List Char), ',' ∉ xs → ',' ∉ xs' →
      xs ++ ',' :: ys = xs' ++ ',' :: ys' → xs = xs' ∧ ys = ys' := by
  intro xs
  induction xs with
  | nil =>
    intro xs' ys ys' _ hx' h
    cases xs' with
    | nil => simpa using h
    | cons a as =>
      simp only [List.nil_append, List.cons_append, List.cons.injEq] at h
      exact absurd (h.1 ▸ List.mem_cons_self a as) hx'
  | cons a as ih =>
    intro xs' ys ys' hx hx' h
    cases xs' with
    | nil =>
      simp only [List.nil_append, List.cons_append, List.cons.injEq] at h
      exact absurd (h.1.symm ▸ List.mem_cons_self a as) hx
    | cons b bs =>
      simp only [List.cons_append, List.cons.injEq] at h
      obtain ⟨hab, htail⟩ := h
      have hx2 : ',' ∉ as := fun hm => hx (List.mem_cons_of_mem a hm)
      have hx'2 : ',' ∉ bs := fun hm => hx' (List.mem_cons_of_mem b hm)
      obtain ⟨h1, h2⟩ := ih bs ys ys' hx2 hx'2 htail
      exact ⟨by rw [hab, h1], h2⟩

/-- Source: `function stringifyCoordinates({ column, row }) { return `[${column},${row}]` }`. -/
def stringifyCoordinates (co : Coordinates) : String :=
  "[" ++ Nat.repr co.column ++ "," ++ Nat.repr co.row ++ "]"

theorem string_append_data (s t : String) : (s ++ t).data = s.data ++ t.data := rfl

theorem stringify_data (co : Coordinates) :
    (stringifyCoordinates co).data
      = '[' :: (natDigits co.column ++ ',' :: (natDigits co.row ++ [']'])) := by
  have h1 : (stringifyCoordinates co).data
      = ['['] ++ (Nat.repr co.column).data ++ [','] ++ (Nat.repr co.row).data ++ [']'] := rfl
  rw [h1, repr_data_eq_natDigits, repr_data_eq_natDigits]
  simp

theorem stringifyCoordinates_injective : Function.Injective stringifyCoordinates := by
  intro a b h
  have hdata := congrArg String.data h
  rw [stringify_data, stringify_data] at hdata
  have hdata2 : natDigits a.column ++ ',' :: (natDigits a.row ++ [']'])
      = natDigits b.column ++ ',' :: (natDigits b.row ++ [']']) :=
    List.cons_injective hdata
  obtain ⟨hcol, hrow⟩ := append_comma_inj _ _ _ _
    (natDigits_no_comma a.column) (natDigits_no_comma b.column) hdata2
  have hrow' : natDigits a.row = natDigits b.row :=
    List.append_cancel_right hrow
  obtain ⟨ac, ar⟩ := a
  obtain ⟨bc, br⟩ := b
  simp only [Coordinates.mk.injEq]
  exact ⟨natDigits_injective hcol, natDigits_injective hrow'⟩

/-! The puzzle data model (variant with assist, `src/unnamed/part_000`
lines 1–295; the other two variants share the piece shape and differ in
`handleClick`, hint fields and fill literals). -/

/-- Source: `FILL_COLORS.REVEALED_FILL`. -/
def REVEALED_FILL : String := "#333333"

/-- Source: `FILL_COLORS.SELECTED_FILL`. -/
def SELECTED_FILL : String := "#4D9DE0"

/-- Source: `FILL_COLORS.COMPLETE_HINT`. -/
def COMPLETE_HINT : String := "#3BB273"

/-- Source: `FILL_COLORS.INCOMPLETE_HINT`. -/
def INCOMPLETE_HINT : String := "#CCCCCC"

/-- Source: `interface PuzzlePiece` (assisted variant; the other variants list the
same fields). -/
structure PuzzlePiece where
  key : String
  coordinates : Coordinates
  fill : String
  revealed : Bool
  style : String
  value : Shape
  selectedValue : SelectableValues
deriving DecidableEq, Repr

/-- Source: `interface PuzzleHint` of the assisted variant (`content` is the tally,
`fill` the completion color). -/
structure PuzzleHint where
  key : String
  coordinates : Coordinates
  content : Nat
  shape : Shape
  style : String
  fill : String
deriving DecidableEq, Repr

/-- Source: `interface PuzzleHint` of the two plain variants (no `fill`). -/
structure PlainHint where
  key : String
  coordinates : Coordinates
  content : Nat
  shape : Shape
  style : String
deriving DecidableEq, Repr

/-- Source: `'column' | 'row'`: which coordinate a tally inspects. -/
inductive Axis where
  | column
  | row
deriving DecidableEq, Repr

/-- Source: `coordinates[columnOrRow]`. -/
def coordGet (co : Coordinates) : Axis → Nat
  | Axis.column => co.column
  | Axis.row => co.row

/-- Source: `PuzzleTally.getValueCount` (assisted variant, lines 49–54): pieces on
the given line whose ground-truth `value` is `shape`.  The two plain
variants name the same function `getTally`. -/
def getValueCount (pieces : List PuzzlePiece) (columnOrRow : Axis)
    (columnOrRowNumber : Nat) (shape : Shape) : Nat :=
  (pieces.filter fun p =>
    columnOrRowNumber == coordGet p.coordinates columnOrRow && shape == p.value).length

/-- Source: `PuzzleTally.getSelectedCount` (lines 56–61): pieces on the given line
whose `selectedValue` is `shape`. -/
def getSelectedCount (pieces : List PuzzlePiece) (columnOrRow : Axis)
    (columnOrRowNumber : Nat) (shape : Shape) : Nat :=
  (pieces.filter fun p =>
    columnOrRowNumber == coordGet p.coordinates columnOrRow
      && some shape == p.selectedValue).length

/-- Source: `getColumnValueCount`. -/
def getColumnValueCount (pieces : List PuzzlePiece) (columnNumber : Nat) (shape : Shape) : Nat :=
  getValueCount pieces Axis.column columnNumber shape

/-- Source: `getColumnSelectedCount`. -/
def getColumnSelectedCount (pieces : List PuzzlePiece) (columnNumber : Nat) (shape : Shape) : Nat :=
  getSelectedCount pieces Axis.column columnNumber shape

/-- Source: `getRowTally`. -/
def getRowTally (pieces : List PuzzlePiece) (rowNumber : Nat) (shape : Shape) : Nat :=
  getValueCount pieces Axis.row rowNumber shape

/-- Source: `getValidRowTally`. -/
def getValidRowTally (pieces : List PuzzlePiece) (rowNumber : Nat) (shape : Shape) : Nat :=
  getSelectedCount pieces Axis.row rowNumber shape

/-- Source: `computeGridItemStyle(coordinates, width = 1, height = 1)` — the JS
builds a whitespace-laden template and strips every whitespace character;
this is the stripped result. -/
def computeGridItemStyle (size : Nat) (co : Coordinates) (width height : Nat) : String :=
  let columnStart := co.column + 1
  let columnEnd := co.column + 1 + width
  let rowStart := co.row + 1
  let rowEnd := co.row + 1 + height
  "grid-column:" ++ Nat.repr columnStart ++ "/" ++ Nat.repr columnEnd ++ ";"
    ++ "grid-row:" ++ Nat.repr rowStart ++ "/" ++ Nat.repr rowEnd ++ ";"
    ++ "width:" ++ Nat.repr (size * width) ++ "px;"
    ++ "height:" ++ Nat.repr (size * height) ++ "px;"

/-- The body of `_generatePieces`'s loop (lines 208–228) at linear index
`index`; `reveal`/`shapeAt` stand for the two `Math.random()` draws
(`REVEAL_PROBABILITY < Math.random()` and `SHAPES[floor(random*3)]`). -/
def makePiece (columns size : Nat) (reveal : Nat → Bool) (shapeAt : Nat → Shape)
    (index : Nat) : PuzzlePiece :=
  let coordinates : Coordinates :=
    ⟨index % columns + SHAPES.length, index / columns + SHAPES.length⟩
  let key := stringifyCoordinates coordinates
  let style := computeGridItemStyle size coordinates 1 1
  let revealed := reveal index
  let value := shapeAt index
  let selectedValue : SelectableValues := if revealed then some value else none
  let fill := if revealed then REVEALED_FILL else SELECTED_FILL
  { key, coordinates, fill, revealed, style, value, selectedValue }

/-- Source: `_generatePieces` (lines 204–231): one piece per linear index in
`[0, columns*rows)`, ascending. -/
def _generatePieces (columns rows size : Nat) (reveal : Nat → Bool)
    (shapeAt : Nat → Shape) : List PuzzlePiece :=
  (List.range (columns * rows)).map (makePiece columns size reveal shapeAt)

/-- The body of `_generateHints`'s inner loop in the assisted variant
(lines 240–262): the hint for shape `shape` (at position `index` in the
shape order) on line coordinate `coord`, carrying the ground-truth tally as
`content` and a completion-dependent `fill`. -/
def makeHint (pieces : List PuzzlePiece) (enableAssist : Bool) (size : Nat)
    (isRow : Bool) (index : Nat) (shape : Shape) (coord : Nat) : PuzzleHint :=
  let valueCount :=
    if isRow then getRowTally pieces coord shape
    else getColumnValueCount pieces coord shape
  let selectedCount :=
    if isRow then getValidRowTally pieces coord shape
    else getColumnSelectedCount pieces coord shape
  let coordinates : Coordinates :=
    if isRow then ⟨index, coord⟩ else ⟨coord, index⟩
  let fill :=
    if valueCount == selectedCount && enableAssist then COMPLETE_HINT
    else INCOMPLETE_HINT
  let key := stringifyCoordinates coordinates
  let style := computeGridItemStyle size coordinates 1 1
  { content := valueCount, coordinates, fill, key, shape, style }

/-- Source: `_generateHints(total, start, isRow)` of the assisted variant
(lines 233–267): for each shape (with its index) and each line coordinate
`coord` in `[start, total)`, the hint built by `makeHint`. -/
def _generateHints (pieces : List PuzzlePiece) (enableAssist : Bool) (size : Nat)
    (total start : Nat) (isRow : Bool) : List PuzzleHint :=
  SHAPES.enum.flatMap fun pr =>
    (List.range' start (total - start)).map fun coord =>
      makeHint pieces enableAssist size isRow pr.1 pr.2 coord

/-- The body of the inner loop of the two plain variants' `_generateHints`
(lines 483–502 and 711–731): `content = tally`, no `fill`. -/
def makePlainHint (pieces : List PuzzlePiece) (size : Nat)
    (isRow : Bool) (index : Nat) (shape : Shape) (coord : Nat) : PlainHint :=
  let coordinates : Coordinates :=
    if isRow then ⟨index, coord⟩ else ⟨coord, index⟩
  let content :=
    if isRow then getRowTally pieces coord shape
    else getColumnValueCount pieces coord shape
  let key := stringifyCoordinates coordinates
  let style := computeGridItemStyle size coordinates 1 1
  { content, coordinates, key, shape, style }

/-- Source: `_generateHints` of the two plain variants (lines 478–506 and 706–734):
identical traversal to the assisted one. -/
def _generateHintsPlain (pieces : List PuzzlePiece) (size : Nat)
    (total start : Nat) (isRow : Bool) : List PlainHint :=
  SHAPES.enum.flatMap fun pr =>
    (List.range' start (total - start)).map fun coord =>
      makePlainHint pieces size isRow pr.1 pr.2 coord

/-- Source: `generateRowHints` (lines 269–274). -/
def generateRowHints (pieces : List PuzzlePiece) (enableAssist : Bool)
    (size rows : Nat) : List PuzzleHint :=
  _generateHints pieces enableAssist size (rows + SHAPES.length) SHAPES.length true

/-- Source: `generateColumnHints` (lines 276–281). -/
def generateColumnHints (pieces : List PuzzlePiece) (enableAssist : Bool)
    (size columns : Nat) : List PuzzleHint :=
  _generateHints pieces enableAssist size (columns + SHAPES.length) SHAPES.length false

/-- Source: `generateHints` (lines 283–285): column hints first, then row hints. -/
def generateHints (pieces : List PuzzlePiece) (enableAssist : Bool)
    (size columns rows : Nat) : List PuzzleHint :=
  generateColumnHints pieces enableAssist size columns
    ++ generateRowHints pieces enableAssist size rows

/-- Source: `checkValidity` (lines 115–118). -/
def checkValidity (pieces : List PuzzlePiece) : Bool :=
  !(pieces.any fun p => some p.value != p.selectedValue)

/-- Source: `reset` on the piece collection (lines 120–131): every non-revealed
piece's `selectedValue` becomes empty; the JS mutates in place and then
spread-copies the array. -/
def reset (pieces : List PuzzlePiece) : List PuzzlePiece :=
  pieces.map fun p =>
    if p.revealed then p else { p with selectedValue := none }

/-- JS object mutation through `find`: apply `f` to the first piece whose
`key` is `uid`, leave the rest alone. -/
def updateFirst (pieces : List PuzzlePiece) (uid : String)
    (f : PuzzlePiece → PuzzlePiece) : List PuzzlePiece :=
  match pieces with
  | [] => []
  | p :: ps => if p.key == uid then f p :: ps else p :: updateFirst ps uid f

/-- Source: `handleClick` of the assisted variant (lines 172–185): no `revealed`
guard, cycles through `SELECTABLE_VALUES`.  The JS destructures the result
of `find` without a guard, so a missing key throws a `TypeError`; that
abort is modelled as `none`. -/
def handleClickUnrestricted (pieces : List PuzzlePiece) (uid : String) :
    Option (List PuzzlePiece) :=
  match pieces.find? (fun p => p.key == uid) with
  | none => none
  | some piece =>
    let index := SELECTABLE_VALUES.indexOf piece.selectedValue
    let nextIndex := (index + 1) % SELECTABLE_VALUES.length
    let nextValue := SELECTABLE_VALUES.getD nextIndex none
    some (updateFirst pieces uid fun p => { p with selectedValue := nextValue })

/-- Source: `handleClick` of the second variant (lines 432–448): revealed pieces
are a no-op; an empty selection takes `SHAPES[0]` and afterwards the
selection rotates through `SHAPES` only. -/
def handleClickRestrictedRotate (pieces : List PuzzlePiece) (uid : String) :
    Option (List PuzzlePiece) :=
  match pieces.find? (fun p => p.key == uid) with
  | none => none
  | some piece =>
    if piece.revealed then some pieces
    else
      match piece.selectedValue with
      | none =>
        some (updateFirst pieces uid fun p =>
          { p with selectedValue := some (SHAPES.getD 0 Shape.circle) })
      | some s =>
        let index := SHAPES.indexOf s
        let nextIndex := (index + 1) % SHAPES.length
        some (updateFirst pieces uid fun p =>
          { p with selectedValue := some (SHAPES.getD nextIndex Shape.circle) })

/-- Source: `handleClick` of the third variant (lines 660–672): revealed pieces are
a no-op; otherwise the selection cycles through `SELECTABLE_VALUES`
(so it wraps back to empty). -/
def handleClickRestrictedCycle (pieces : List PuzzlePiece) (uid : String) :
    Option (List PuzzlePiece) :=
  match pieces.find? (fun p => p.key == uid) with
  | none => none
  | some piece =>
    if piece.revealed then some pieces
    else
      let index := SELECTABLE_VALUES.indexOf piece.selectedValue
      let nextIndex := (index + 1) % SELECTABLE_VALUES.length
      let nextValue := SELECTABLE_VALUES.getD nextIndex none
      some (updateFirst pieces uid fun p => { p with selectedValue := nextValue })

/-! Numeric dimension setters (`set columns(val) { this._columns = Number(val) }`)

JS numbers are modelled as rationals; `Number(val)` applied to a value that
is already numeric returns that number unchanged. -/

/-- The two configurable grid dimensions of `Container`. -/
structure ContainerDims where
  _columns : Rat
  _rows : Rat
deriving DecidableEq, Repr

/-- Source: `set columns(val)` for a numeric `val`. -/
def setColumns (st : ContainerDims) (val : Rat) : ContainerDims :=
  { st with _columns := val }

/-- Source: `set rows(val)` for a numeric `val`. -/
def setRows (st : ContainerDims) (val : Rat) : ContainerDims :=
  { st with _rows := val }

/-! Helper lemmas about generated pieces -/

/-- The coordinates assigned to linear `index` by `_generatePieces`. -/
def pieceCoord (columns index : Nat) : Coordinates :=
  ⟨index % columns + SHAPES.length, index / columns + SHAPES.length⟩

theorem makePiece_coordinates (columns size : Nat) (reveal : Nat → Bool)
    (shapeAt : Nat → Shape) (index : Nat) :
    (makePiece columns size reveal shapeAt index).coordinates = pieceCoord columns index := rfl

theorem makePiece_key (columns size : Nat) (reveal : Nat → Bool)
    (shapeAt : Nat → Shape) (index : Nat) :
    (makePiece columns size reveal shapeAt index).key
      = stringifyCoordinates (pieceCoord columns index) := rfl

theorem makePiece_selectedValue (columns size : Nat) (reveal : Nat → Bool)
    (shapeAt : Nat → Shape) (index : Nat) :
    (makePiece columns size reveal shapeAt index).selectedValue
      = if reveal index then some (shapeAt index) else none := rfl

theorem makePiece_revealed (columns size : Nat) (reveal : Nat → Bool)
    (shapeAt : Nat → Shape) (index : Nat) :
    (makePiece columns size reveal shapeAt index).revealed = reveal index := rfl

theorem makePiece_value (columns size : Nat) (reveal : Nat → Bool)
    (shapeAt : Nat → Shape) (index : Nat) :
    (makePiece columns size reveal shapeAt index).value = shapeAt index := rfl

theorem pieceCoord_inj (columns : Nat) : Function.Injective (pieceCoord columns) := by
  intro i j h
  simp only [pieceCoord, Coordinates.mk.injEq] at h
  obtain ⟨hc, hr⟩ := h
  have hc' : i % columns = j % columns := by omega
  have hr' : i / columns = j / columns := by omega
  calc i = columns * (i / columns) + i % columns := (Nat.div_add_mod i columns).symm
    _ = columns * (j / columns) + j % columns := by rw [hc', hr']
    _ = j := Nat.div_add_mod j columns

theorem generatePieces_map_coordinates (columns rows size : Nat) (reveal : Nat → Bool)
    (shapeAt : Nat → Shape) :
    (_generatePieces columns rows size reveal shapeAt).map (fun p => p.coordinates)
      = (List.range (columns * rows)).map (pieceCoord columns) := by
  simp only [_generatePieces, List.map_map]
  rfl

theorem generatePieces_map_key (columns rows size : Nat) (reveal : Nat → Bool)
    (shapeAt : Nat → Shape) :
    (_generatePieces columns rows size reveal shapeAt).map (fun p => p.key)
      = (List.range (columns * rows)).map
          (fun i => stringifyCoordinates (pieceCoord columns i)) := by
  simp only [_generatePieces, List.map_map]
  rfl

theorem generatePieces_keys_nodup (columns rows size : Nat) (reveal : Nat → Bool)
    (shapeAt : Nat → Shape) :
    ((_generatePieces columns rows size reveal shapeAt).map (fun p => p.key)).Nodup := by
  rw [generatePieces_map_key]
  exact List.Nodup.map
    (fun i j h => pieceCoord_inj columns (stringifyCoordinates_injective h))
    (List.nodup_range _)

theorem mem_pieceCoords (columns rows : Nat) (hc : 0 < columns) (co : Coordinates) :
    co ∈ (List.range (columns * rows)).map (pieceCoord columns) ↔
      (SHAPES.length ≤ co.column ∧ co.column < SHAPES.length + columns ∧
       SHAPES.length ≤ co.row ∧ co.row < SHAPES.length + rows) := by
  obtain ⟨c, r⟩ := co
  have hS : SHAPES.length = 3 := rfl
  simp only [List.mem_map, List.mem_range]
  constructor
  · rintro ⟨i, hi, heq⟩
    have h1 : i % columns < columns := Nat.mod_lt _ hc
    have h2 : i / columns < rows := by
      rw [Nat.div_lt_iff_lt_mul hc, Nat.mul_comm rows columns]
      exact hi
    simp only [pieceCoord, Coordinates.mk.injEq] at heq
    obtain ⟨e1, e2⟩ := heq
    subst e1
    subst e2
    generalize i % columns = a at h1 ⊢
    generalize i / columns = b at h2 ⊢
    omega
  · rintro ⟨h1, h2, h3, h4⟩
    refine ⟨(r - SHAPES.length) * columns + (c - SHAPES.length), ?_, ?_⟩
    · have hcol : c - SHAPES.length < columns := by omega
      calc (r - SHAPES.length) * columns + (c - SHAPES.length)
          < (r - SHAPES.length) * columns + columns := by omega
        _ = ((r - SHAPES.length) + 1) * columns := by ring
        _ ≤ rows * columns := Nat.mul_le_mul_right _ (by omega)
        _ = columns * rows := Nat.mul_comm _ _
    · have hcol : c - SHAPES.length < columns := by omega
      have e1 : ((r - SHAPES.length) * columns + (c - SHAPES.length)) % columns
          = c - SHAPES.length := by
        rw [Nat.mul_comm (r - SHAPES.length) columns, Nat.mul_add_mod,
          Nat.mod_eq_of_lt hcol]
      have e2 : ((r - SHAPES.length) * columns + (c - SHAPES.length)) / columns
          = r - SHAPES.length := by
        rw [Nat.mul_comm (r - SHAPES.length) columns, Nat.mul_add_div hc,
          Nat.div_eq_of_lt hcol, Nat.add_zero]
      simp only [pieceCoord, Coordinates.mk.injEq, e1, e2]
      omega

theorem generatePieces_length (columns rows size : Nat) (reveal : Nat → Bool)
    (shapeAt : Nat → Shape) :
    (_generatePieces columns rows size reveal shapeAt).length = columns * rows := by
  simp [_generatePieces]

/-- C1 -- For every `columns > 0` and `rows > 0`, `generatePieces` yields
exactly `columns*rows` pieces, their keys are pairwise distinct, the `i`-th
piece sits at the row-major cell `(i mod columns + numShapes,
i div columns + numShapes)`, and the coordinates cover exactly the cross
product of the column band `[numShapes, numShapes+columns)` and the row
band `[numShapes, numShapes+rows)` -- no duplicate, no missing cell. -/
theorem c1_generatePieces_cross_product (columns rows size : Nat)
    (reveal : Nat → Bool) (shapeAt : Nat → Shape)
    (hc : 0 < columns) (hr : 0 < rows) :
    (_generatePieces columns rows size reveal shapeAt).length = columns * rows ∧
    ((_generatePieces columns rows size reveal shapeAt).map (fun p => p.key)).Nodup ∧
    ((_generatePieces columns rows size reveal shapeAt).map
      (fun p => p.coordinates)).Nodup ∧
    (∀ i, (hi : i < (_generatePieces columns rows size reveal shapeAt).length) →
      ((_generatePieces columns rows size reveal shapeAt).get ⟨i, hi⟩).coordinates
        = ⟨i % columns + SHAPES.length, i / columns + SHAPES.length⟩) ∧
    (∀ co : Coordinates,
      co ∈ (_generatePieces columns rows size reveal shapeAt).map
          (fun p => p.coordinates) ↔
        (SHAPES.length ≤ co.column ∧ co.column < SHAPES.length + columns ∧
         SHAPES.length ≤ co.row ∧ co.row < SHAPES.length + rows)) := by
  refine ⟨generatePieces_length columns rows size reveal shapeAt,
    generatePieces_keys_nodup columns rows size reveal shapeAt, ?_, ?_, ?_⟩
  · rw [generatePieces_map_coordinates]
    exact List.Nodup.map (pieceCoord_inj columns) (List.nodup_range _)
  · intro i hi
    simp only [_generatePieces, List.get_eq_getElem, List.getElem_map, List.getElem_range]
    rfl
  · intro co
    rw [generatePieces_map_coordinates]
    exact mem_pieceCoords columns rows hc co

/-- C1 witness: the theorem instantiated on a concrete 2-by-1 grid. -/
theorem c1_witness :
    (_generatePieces 2 1 70 (fun _ => false) (fun _ => Shape.circle)).length = 2 * 1 ∧
    ((_generatePieces 2 1 70 (fun _ => false) (fun _ => Shape.circle)).map
      (fun p => p.key)).Nodup ∧
    ((_generatePieces 2 1 70 (fun _ => false) (fun _ => Shape.circle)).map
      (fun p => p.coordinates)).Nodup ∧
    (∀ i, (hi : i < (_generatePieces 2 1 70 (fun _ => false)
        (fun _ => Shape.circle)).length) →
      ((_generatePieces 2 1 70 (fun _ => false) (fun _ => Shape.circle)).get
          ⟨i, hi⟩).coordinates
        = ⟨i % 2 + SHAPES.length, i / 2 + SHAPES.length⟩) ∧
    (∀ co : Coordinates,
      co ∈ (_generatePieces 2 1 70 (fun _ => false) (fun _ => Shape.circle)).map
          (fun p => p.coordinates) ↔
        (SHAPES.length ≤ co.column ∧ co.column < SHAPES.length + 2 ∧
         SHAPES.length ≤ co.row ∧ co.row < SHAPES.length + 1)) :=
  c1_generatePieces_cross_product 2 1 70 (fun _ => false) (fun _ => Shape.circle)
    (by decide) (by decide)

/-! C4: checkValidity -/

theorem checkValidity_iff (pieces : List PuzzlePiece) :
    checkValidity pieces = true ↔ ∀ p ∈ pieces, p.selectedValue = some p.value := by
  simp only [checkValidity, Bool.not_eq_true', List.any_eq_false, bne_iff_ne, ne_eq, not_not]
  constructor
  · intro h p hp
    exact (h p hp).symm
  · intro h p hp
    exact (h p hp).symm

theorem makePiece_valid_iff (columns size : Nat) (reveal : Nat → Bool)
    (shapeAt : Nat → Shape) (i : Nat) :
    ((makePiece columns size reveal shapeAt i).selectedValue
        = some (makePiece columns size reveal shapeAt i).value) ↔
      (makePiece columns size reveal shapeAt i).revealed = true := by
  rw [makePiece_selectedValue, makePiece_value, makePiece_revealed]
  cases h : reveal i <;> simp

theorem mem_generatePieces (columns rows size : Nat) (reveal : Nat → Bool)
    (shapeAt : Nat → Shape) (p : PuzzlePiece)
    (hp : p ∈ _generatePieces columns rows size reveal shapeAt) :
    ∃ i, p = makePiece columns size reveal shapeAt i := by
  simp only [_generatePieces, List.mem_map, List.mem_range] at hp
  obtain ⟨i, _, rfl⟩ := hp
  exact ⟨i, rfl⟩

/-- C4 -- `checkValidity(pieces)` is true iff every piece's `selectedValue`
equals its `value`; and on a freshly generated collection it is true iff
every generated piece is revealed (revealed pieces start with
`selectedValue = value`, unrevealed ones with the empty selection, which is
never a shape). -/
theorem c4_checkValidity_spec :
    (∀ pieces : List PuzzlePiece,
      (checkValidity pieces = true ↔ ∀ p ∈ pieces, p.selectedValue = some p.value)) ∧
    (∀ (columns rows size : Nat) (reveal : Nat → Bool) (shapeAt : Nat → Shape),
      (checkValidity (_generatePieces columns rows size reveal shapeAt) = true ↔
        ∀ p ∈ _generatePieces columns rows size reveal shapeAt, p.revealed = true)) := by
  refine ⟨checkValidity_iff, ?_⟩
  intro columns rows size reveal shapeAt
  rw [checkValidity_iff]
  constructor
  · intro h p hp
    obtain ⟨i, rfl⟩ := mem_generatePieces columns rows size reveal shapeAt p hp
    exact (makePiece_valid_iff columns size reveal shapeAt i).1 (h _ hp)
  · intro h p hp
    obtain ⟨i, rfl⟩ := mem_generatePieces columns rows size reveal shapeAt p hp
    exact (makePiece_valid_iff columns size reveal shapeAt i).2 (h _ hp)

/-! C7: reset -/

/-- C7 -- `reset` relates the old and new collections pointwise: every
field other than `selectedValue` is unchanged, a revealed piece is
unchanged altogether, and a non-revealed piece ends with the empty
selection. -/
theorem c7_reset_frame (pieces : List PuzzlePiece) :
    List.Forall₂ (fun p q =>
      q.key = p.key ∧ q.coordinates = p.coordinates ∧ q.value = p.value ∧
      q.revealed = p.revealed ∧ q.fill = p.fill ∧ q.style = p.style ∧
      (p.revealed = true → q = p) ∧
      (p.revealed = false → q.selectedValue = none))
      pieces (reset pieces) := by
  induction pieces with
  | nil => exact List.Forall₂.nil
  | cons p ps ih =>
    refine List.Forall₂.cons ?_ ih
    cases h : p.revealed <;> simp [h]


/-! C2: hint contents are ground-truth tallies -/

theorem beq_and_swap {α β : Type} [BEq α] [LawfulBEq α] [BEq β] [LawfulBEq β]
    (a b : α) (c d : β) : (a == b && c == d) = (b == a && d == c) := by
  by_cases h1 : a = b
  · subst h1
    by_cases h2 : c = d
    · subst h2
      rfl
    · rw [beq_eq_false_iff_ne.mpr h2, beq_eq_false_iff_ne.mpr (fun hh => h2 hh.symm)]
  · rw [beq_eq_false_iff_ne.mpr h1, beq_eq_false_iff_ne.mpr (fun hh => h1 hh.symm)]
    simp

/-- Spec-side tally contract: the number of pieces whose coordinate on the
given axis equals the line coordinate and whose ground-truth `value`
equals the shape. -/
def lineValueTally (pieces : List PuzzlePiece) (axis : Axis) (coord : Nat)
    (shape : Shape) : Nat :=
  pieces.countP fun p => coordGet p.coordinates axis == coord && p.value == shape

/-- Spec-side tally of the user's selections: the number of pieces on the
line whose `selectedValue` equals the shape. -/
def lineSelectedTally (pieces : List PuzzlePiece) (axis : Axis) (coord : Nat)
    (shape : Shape) : Nat :=
  pieces.countP fun p =>
    coordGet p.coordinates axis == coord && p.selectedValue == some shape

/-- The axis a hint generated with flag `isRow` tallies along. -/
def hintAxis (isRow : Bool) : Axis :=
  if isRow then Axis.row else Axis.column

/-- The line coordinate a hint's tally was computed for, recovered from
its placed coordinates. -/
def hintLineCoord (isRow : Bool) (co : Coordinates) : Nat :=
  if isRow then co.row else co.column

theorem getValueCount_eq_lineValueTally (pieces : List PuzzlePiece)
    (axis : Axis) (coord : Nat) (shape : Shape) :
    getValueCount pieces axis coord shape = lineValueTally pieces axis coord shape := by
  rw [lineValueTally, List.countP_eq_length_filter, getValueCount]
  congr 1
  apply List.filter_congr
  intro p _
  exact beq_and_swap coord (coordGet p.coordinates axis) shape p.value

theorem getSelectedCount_eq_lineSelectedTally (pieces : List PuzzlePiece)
    (axis : Axis) (coord : Nat) (shape : Shape) :
    getSelectedCount pieces axis coord shape
      = lineSelectedTally pieces axis coord shape := by
  rw [lineSelectedTally, List.countP_eq_length_filter, getSelectedCount]
  congr 1
  apply List.filter_congr
  intro p _
  exact beq_and_swap coord (coordGet p.coordinates axis) (some shape) p.selectedValue

theorem makeHint_content (pieces : List PuzzlePiece) (assist : Bool)
    (size : Nat) (isRow : Bool) (index : Nat) (shape : Shape) (coord : Nat) :
    (makeHint pieces assist size isRow index shape coord).content
      = lineValueTally pieces (hintAxis isRow) coord shape := by
  cases isRow
  · exact getValueCount_eq_lineValueTally pieces Axis.column coord shape
  · exact getValueCount_eq_lineValueTally pieces Axis.row coord shape

theorem makeHint_shape (pieces : List PuzzlePiece) (assist : Bool)
    (size : Nat) (isRow : Bool) (index : Nat) (shape : Shape) (coord : Nat) :
    (makeHint pieces assist size isRow index shape coord).shape = shape := rfl

theorem makeHint_coordinates (pieces : List PuzzlePiece) (assist : Bool)
    (size : Nat) (isRow : Bool) (index : Nat) (shape : Shape) (coord : Nat) :
    (makeHint pieces assist size isRow index shape coord).coordinates
      = if isRow then ⟨index, coord⟩ else ⟨coord, index⟩ := rfl

theorem makeHint_key (pieces : List PuzzlePiece) (assist : Bool)
    (size : Nat) (isRow : Bool) (index : Nat) (shape : Shape) (coord : Nat) :
    (makeHint pieces assist size isRow index shape coord).key
      = stringifyCoordinates
          (makeHint pieces assist size isRow index shape coord).coordinates := rfl

theorem makeHint_lineCoord (pieces : List PuzzlePiece) (assist : Bool)
    (size : Nat) (isRow : Bool) (index : Nat) (shape : Shape) (coord : Nat) :
    hintLineCoord isRow (makeHint pieces assist size isRow index shape coord).coordinates
      = coord := by
  rw [makeHint_coordinates]
  cases isRow <;> rfl

theorem makeHint_fill (pieces : List PuzzlePiece) (assist : Bool)
    (size : Nat) (isRow : Bool) (index : Nat) (shape : Shape) (coord : Nat) :
    (makeHint pieces assist size isRow index shape coord).fill
      = if lineValueTally pieces (hintAxis isRow) coord shape
            == lineSelectedTally pieces (hintAxis isRow) coord shape && assist
        then COMPLETE_HINT else INCOMPLETE_HINT := by
  cases isRow
  · show (if getColumnValueCount pieces coord shape
          == getColumnSelectedCount pieces coord shape && assist
        then COMPLETE_HINT else INCOMPLETE_HINT) = _
    rw [getColumnValueCount, getColumnSelectedCount,
      getValueCount_eq_lineValueTally, getSelectedCount_eq_lineSelectedTally]
    rfl
  · show (if getRowTally pieces coord shape
          == getValidRowTally pieces coord shape && assist
        then COMPLETE_HINT else INCOMPLETE_HINT) = _
    rw [getRowTally, getValidRowTally,
      getValueCount_eq_lineValueTally, getSelectedCount_eq_lineSelectedTally]
    rfl

theorem makePlainHint_content (pieces : List PuzzlePiece)
    (size : Nat) (isRow : Bool) (index : Nat) (shape : Shape) (coord : Nat) :
    (makePlainHint pieces size isRow index shape coord).content
      = lineValueTally pieces (hintAxis isRow) coord shape := by
  cases isRow
  · exact getValueCount_eq_lineValueTally pieces Axis.column coord shape
  · exact getValueCount_eq_lineValueTally pieces Axis.row coord shape

theorem makePlainHint_lineCoord (pieces : List PuzzlePiece)
    (size : Nat) (isRow : Bool) (index : Nat) (shape : Shape) (coord : Nat) :
    hintLineCoord isRow (makePlainHint pieces size isRow index shape coord).coordinates
      = coord := by
  cases isRow <;> rfl

/-- C2 -- the tally used as a hint's `content` is the ground-truth count:
for every axis, line coordinate and shape, `getValueCount` counts exactly
the pieces on that line whose `value` equals the shape, and every hint
emitted by the assisted variant's `_generateHints` or by the plain
variants' `_generateHints` carries exactly that ground-truth count for its
own line and shape — never the selected-value count. -/
theorem c2_hint_content_is_ground_truth :
    (∀ (pieces : List PuzzlePiece) (axis : Axis) (coord : Nat) (shape : Shape),
      getValueCount pieces axis coord shape
        = lineValueTally pieces axis coord shape) ∧
    (∀ (pieces : List PuzzlePiece) (assist : Bool) (size total start : Nat)
        (isRow : Bool),
      ∀ h ∈ _generateHints pieces assist size total start isRow,
        h.content
          = lineValueTally pieces (hintAxis isRow)
              (hintLineCoord isRow h.coordinates) h.shape) ∧
    (∀ (pieces : List PuzzlePiece) (size total start : Nat) (isRow : Bool),
      ∀ h ∈ _generateHintsPlain pieces size total start isRow,
        h.content
          = lineValueTally pieces (hintAxis isRow)
              (hintLineCoord isRow h.coordinates) h.shape) := by
  refine ⟨getValueCount_eq_lineValueTally, ?_, ?_⟩
  · intro pieces assist size total start isRow h hmem
    simp only [_generateHints, List.mem_flatMap, List.mem_map] at hmem
    obtain ⟨pr, _, coord, _, rfl⟩ := hmem
    rw [makeHint_content, makeHint_shape, makeHint_lineCoord]
  · intro pieces size total start isRow h hmem
    simp only [_generateHintsPlain, List.mem_flatMap, List.mem_map] at hmem
    obtain ⟨pr, _, coord, _, rfl⟩ := hmem
    rw [makePlainHint_content, makePlainHint_lineCoord]
    rfl

/-! C8: hint fill and assist mode -/

theorem bool_ite_fill (x y : Nat) (assist : Bool) :
    (if x == y && assist then COMPLETE_HINT else INCOMPLETE_HINT)
      = (if x = y ∧ assist = true then COMPLETE_HINT else INCOMPLETE_HINT) := by
  by_cases hx : x = y <;> cases assist <;> simp [hx]

/-- C8 -- a generated hint's `fill` is the "complete" color iff the
ground-truth tally equals the selected-value tally for the hint's
(axis, line coordinate, shape) triple AND assist mode is enabled; with
assist disabled every generated hint carries the "incomplete" fill. -/
theorem c8_hint_fill_complete_iff :
    (∀ (pieces : List PuzzlePiece) (assist : Bool) (size total start : Nat)
        (isRow : Bool),
      ∀ h ∈ _generateHints pieces assist size total start isRow,
        h.fill =
          if lineValueTally pieces (hintAxis isRow)
                (hintLineCoord isRow h.coordinates) h.shape
              = lineSelectedTally pieces (hintAxis isRow)
                  (hintLineCoord isRow h.coordinates) h.shape
              ∧ assist = true
          then COMPLETE_HINT else INCOMPLETE_HINT) ∧
    (∀ (pieces : List PuzzlePiece) (size total start : Nat) (isRow : Bool),
      ∀ h ∈ _generateHints pieces false size total start isRow,
        h.fill = INCOMPLETE_HINT) := by
  have hmain : ∀ (pieces : List PuzzlePiece) (assist : Bool)
      (size total start : Nat) (isRow : Bool),
      ∀ h ∈ _generateHints pieces assist size total start isRow,
        h.fill =
          if lineValueTally pieces (hintAxis isRow)
                (hintLineCoord isRow h.coordinates) h.shape
              = lineSelectedTally pieces (hintAxis isRow)
                  (hintLineCoord isRow h.coordinates) h.shape
              ∧ assist = true
          then COMPLETE_HINT else INCOMPLETE_HINT := by
    intro pieces assist size total start isRow h hmem
    simp only [_generateHints, List.mem_flatMap, List.mem_map] at hmem
    obtain ⟨pr, _, coord, _, rfl⟩ := hmem
    rw [makeHint_fill, makeHint_shape, makeHint_lineCoord, bool_ite_fill]
  refine ⟨hmain, ?_⟩
  intro pieces size total start isRow h hmem
  rw [hmain pieces false size total start isRow h hmem]
  simp

/-! C3: hint enumeration and count -/

theorem colHints_shape_coords (pieces : List PuzzlePiece) (assist : Bool)
    (size columns : Nat) :
    (generateColumnHints pieces assist size columns).map
        (fun h => (h.shape, h.coordinates))
      = SHAPES.enum.flatMap fun pr =>
          (List.range' SHAPES.length columns).map
            fun c => (pr.2, (⟨c, pr.1⟩ : Coordinates)) := by
  rw [generateColumnHints, _generateHints, Nat.add_sub_cancel, List.map_flatMap]
  simp only [List.map_map]
  rfl

theorem rowHints_shape_coords (pieces : List PuzzlePiece) (assist : Bool)
    (size rows : Nat) :
    (generateRowHints pieces assist size rows).map
        (fun h => (h.shape, h.coordinates))
      = SHAPES.enum.flatMap fun pr =>
          (List.range' SHAPES.length rows).map
            fun r => (pr.2, (⟨pr.1, r⟩ : Coordinates)) := by
  rw [generateRowHints, _generateHints, Nat.add_sub_cancel, List.map_flatMap]
  simp only [List.map_map]
  rfl

theorem colHints_length (pieces : List PuzzlePiece) (assist : Bool)
    (size columns : Nat) :
    (generateColumnHints pieces assist size columns).length
      = SHAPES.length * columns := by
  have h := congrArg List.length (colHints_shape_coords pieces assist size columns)
  rw [List.length_map] at h
  rw [h]
  simp [SHAPES, List.enum, List.enumFrom, List.flatMap_cons, List.length_append,
    List.length_map, List.length_range']
  omega

theorem rowHints_length (pieces : List PuzzlePiece) (assist : Bool)
    (size rows : Nat) :
    (generateRowHints pieces assist size rows).length = SHAPES.length * rows := by
  have h := congrArg List.length (rowHints_shape_coords pieces assist size rows)
  rw [List.length_map] at h
  rw [h]
  simp [SHAPES, List.enum, List.enumFrom, List.flatMap_cons, List.length_append,
    List.length_map, List.length_range']
  omega

/-- C3 -- `generateHints` emits exactly `numShapes*(columns+rows)` hints,
all column hints followed by all row hints; for each shape at index `i`
the column hints run through the column coordinates `[numShapes,
numShapes+columns)` at `(column=c, row=i)` and the row hints through the
row coordinates `[numShapes, numShapes+rows)` at `(column=i, row=r)`. -/
theorem c3_generateHints_layout :
    (∀ (pieces : List PuzzlePiece) (assist : Bool) (size columns rows : Nat),
      (generateHints pieces assist size columns rows).length
        = SHAPES.length * (columns + rows)) ∧
    (∀ (pieces : List PuzzlePiece) (assist : Bool) (size columns rows : Nat),
      generateHints pieces assist size columns rows
        = generateColumnHints pieces assist size columns
            ++ generateRowHints pieces assist size rows) ∧
    (∀ (pieces : List PuzzlePiece) (assist : Bool) (size columns : Nat),
      (generateColumnHints pieces assist size columns).map
          (fun h => (h.shape, h.coordinates))
        = SHAPES.enum.flatMap fun pr =>
            (List.range' SHAPES.length columns).map
              fun c => (pr.2, (⟨c, pr.1⟩ : Coordinates))) ∧
    (∀ (pieces : List PuzzlePiece) (assist : Bool) (size rows : Nat),
      (generateRowHints pieces assist size rows).map
          (fun h => (h.shape, h.coordinates))
        = SHAPES.enum.flatMap fun pr =>
            (List.range' SHAPES.length rows).map
              fun r => (pr.2, (⟨pr.1, r⟩ : Coordinates))) := by
  refine ⟨?_, fun _ _ _ _ _ => rfl, colHints_shape_coords, rowHints_shape_coords⟩
  intro pieces assist size columns rows
  rw [generateHints, List.length_append, colHints_length, rowHints_length]
  ring

/-! C10: hints live in the reserved band, pieces outside it, and the
combined key set is duplicate-free -/

/-- The coordinates of the column hints, in emission order. -/
def colHintCoords (columns : Nat) : List Coordinates :=
  SHAPES.enum.flatMap fun pr =>
    (List.range' SHAPES.length columns).map fun c => ⟨c, pr.1⟩

/-- The coordinates of the row hints, in emission order. -/
def rowHintCoords (rows : Nat) : List Coordinates :=
  SHAPES.enum.flatMap fun pr =>
    (List.range' SHAPES.length rows).map fun r => ⟨pr.1, r⟩

theorem colHints_map_coordinates (pieces : List PuzzlePiece) (assist : Bool)
    (size columns : Nat) :
    (generateColumnHints pieces assist size columns).map (fun h => h.coordinates)
      = colHintCoords columns := by
  rw [generateColumnHints, _generateHints, Nat.add_sub_cancel, colHintCoords,
    List.map_flatMap]
  simp only [List.map_map]
  rfl

theorem rowHints_map_coordinates (pieces : List PuzzlePiece) (assist : Bool)
    (size rows : Nat) :
    (generateRowHints pieces assist size rows).map (fun h => h.coordinates)
      = rowHintCoords rows := by
  rw [generateRowHints, _generateHints, Nat.add_sub_cancel, rowHintCoords,
    List.map_flatMap]
  simp only [List.map_map]
  rfl

theorem colHints_map_key (pieces : List PuzzlePiece) (assist : Bool)
    (size columns : Nat) :
    (generateColumnHints pieces assist size columns).map (fun h => h.key)
      = (colHintCoords columns).map stringifyCoordinates := by
  rw [generateColumnHints, _generateHints, Nat.add_sub_cancel, colHintCoords,
    List.map_flatMap, List.map_flatMap]
  simp only [List.map_map]
  rfl

theorem rowHints_map_key (pieces : List PuzzlePiece) (assist : Bool)
    (size rows : Nat) :
    (generateRowHints pieces assist size rows).map (fun h => h.key)
      = (rowHintCoords rows).map stringifyCoordinates := by
  rw [generateRowHints, _generateHints, Nat.add_sub_cancel, rowHintCoords,
    List.map_flatMap, List.map_flatMap]
  simp only [List.map_map]
  rfl

theorem mem_colHintCoords (columns : Nat) (co : Coordinates)
    (h : co ∈ colHintCoords columns) :
    SHAPES.length ≤ co.column ∧ co.column < SHAPES.length + columns ∧
      co.row < SHAPES.length := by
  simp only [colHintCoords, SHAPES, List.enum, List.enumFrom, List.flatMap_cons,
    List.flatMap_nil, List.append_nil, List.mem_append, List.mem_map,
    List.mem_range'_1] at h
  rcases h with ⟨c, hc, rfl⟩ | ⟨c, hc, rfl⟩ | ⟨c, hc, rfl⟩ <;>
    exact ⟨by simpa [SHAPES] using hc.1, by simpa [SHAPES] using hc.2, by simp [SHAPES]⟩

theorem mem_rowHintCoords (rows : Nat) (co : Coordinates)
    (h : co ∈ rowHintCoords rows) :
    co.column < SHAPES.length ∧ SHAPES.length ≤ co.row ∧
      co.row < SHAPES.length + rows := by
  simp only [rowHintCoords, SHAPES, List.enum, List.enumFrom, List.flatMap_cons,
    List.flatMap_nil, List.append_nil, List.mem_append, List.mem_map,
    List.mem_range'_1] at h
  rcases h with ⟨r, hr, rfl⟩ | ⟨r, hr, rfl⟩ | ⟨r, hr, rfl⟩ <;>
    exact ⟨by simp [SHAPES], by simpa [SHAPES] using hr.1, by simpa [SHAPES] using hr.2⟩

theorem colHintCoords_nodup (columns : Nat) : (colHintCoords columns).Nodup := by
  simp only [colHintCoords, SHAPES, List.enum, List.enumFrom, List.flatMap_cons,
    List.flatMap_nil, List.append_nil]
  have hmap : ∀ i : Nat,
      ((List.range' SHAPES.length columns).map
        (fun c => (⟨c, i⟩ : Coordinates))).Nodup :=
    fun i => List.Nodup.map (fun x y h => congrArg Coordinates.column h)
      (List.nodup_range' _ _)
  have hrow : ∀ (i : Nat) (co : Coordinates),
      co ∈ (List.range' SHAPES.length columns).map
        (fun c => (⟨c, i⟩ : Coordinates)) → co.row = i := by
    intro i co hm
    simp only [List.mem_map] at hm
    obtain ⟨c, _, rfl⟩ := hm
    rfl
  refine List.nodup_append.2 ⟨hmap 0, List.nodup_append.2
    ⟨hmap 1, hmap 2, ?_⟩, ?_⟩
  · intro a ha hb
    have h1 := hrow 1 a ha
    have h2 := hrow 2 a hb
    omega
  · intro a ha hb
    have h0 := hrow 0 a ha
    rcases List.mem_append.1 hb with hb | hb
    · have h1 := hrow 1 a hb
      omega
    · have h2 := hrow 2 a hb
      omega

theorem rowHintCoords_nodup (rows : Nat) : (rowHintCoords rows).Nodup := by
  simp only [rowHintCoords, SHAPES, List.enum, List.enumFrom, List.flatMap_cons,
    List.flatMap_nil, List.append_nil]
  have hmap : ∀ i : Nat,
      ((List.range' SHAPES.length rows).map
        (fun r => (⟨i, r⟩ : Coordinates))).Nodup :=
    fun i => List.Nodup.map (fun x y h => congrArg Coordinates.row h)
      (List.nodup_range' _ _)
  have hcol : ∀ (i : Nat) (co : Coordinates),
      co ∈ (List.range' SHAPES.length rows).map
        (fun r => (⟨i, r⟩ : Coordinates)) → co.column = i := by
    intro i co hm
    simp only [List.mem_map] at hm
    obtain ⟨r, _, rfl⟩ := hm
    rfl
  refine List.nodup_append.2 ⟨hmap 0, List.nodup_append.2
    ⟨hmap 1, hmap 2, ?_⟩, ?_⟩
  · intro a ha hb
    have h1 := hcol 1 a ha
    have h2 := hcol 2 a hb
    omega
  · intro a ha hb
    have h0 := hcol 0 a ha
    rcases List.mem_append.1 hb with hb | hb
    · have h1 := hcol 1 a hb
      omega
    · have h2 := hcol 2 a hb
      omega

theorem allCoords_nodup (columns rows : Nat) :
    ((List.range (columns * rows)).map (pieceCoord columns)
      ++ (colHintCoords columns ++ rowHintCoords rows)).Nodup := by
  refine List.nodup_append.2
    ⟨List.Nodup.map (pieceCoord_inj columns) (List.nodup_range _),
      List.nodup_append.2 ⟨colHintCoords_nodup columns, rowHintCoords_nodup rows, ?_⟩,
      ?_⟩
  · intro a ha hb
    have h1 := (mem_colHintCoords columns a ha).1
    have h2 := (mem_rowHintCoords rows a hb).1
    omega
  · intro a ha hb
    simp only [List.mem_map, List.mem_range] at ha
    obtain ⟨i, _, rfl⟩ := ha
    have hge : SHAPES.length ≤ (pieceCoord columns i).column ∧
        SHAPES.length ≤ (pieceCoord columns i).row :=
      ⟨Nat.le_add_left _ _, Nat.le_add_left _ _⟩
    rcases List.mem_append.1 hb with hb | hb
    · have h1 := (mem_colHintCoords columns _ hb).2.2
      omega
    · have h1 := (mem_rowHintCoords rows _ hb).1
      omega

/-- C10 -- every generated piece has both coordinates in the puzzle band
(at least `numShapes`), every column hint sits at `row < numShapes` with
`column ≥ numShapes`, every row hint at `column < numShapes` with
`row ≥ numShapes`, and the keys of the pieces and of the full hint set are
pairwise distinct as one combined collection: no hint aliases a puzzle
cell. -/
theorem c10_hint_band_and_distinct_keys (columns rows size : Nat)
    (reveal : Nat → Bool) (shapeAt : Nat → Shape) (assist : Bool) :
    (∀ p ∈ _generatePieces columns rows size reveal shapeAt,
      SHAPES.length ≤ p.coordinates.column ∧ SHAPES.length ≤ p.coordinates.row) ∧
    (∀ h ∈ generateColumnHints (_generatePieces columns rows size reveal shapeAt)
        assist size columns,
      SHAPES.length ≤ h.coordinates.column ∧ h.coordinates.row < SHAPES.length) ∧
    (∀ h ∈ generateRowHints (_generatePieces columns rows size reveal shapeAt)
        assist size rows,
      h.coordinates.column < SHAPES.length ∧ SHAPES.length ≤ h.coordinates.row) ∧
    ((_generatePieces columns rows size reveal shapeAt).map (fun p => p.key)
      ++ (generateHints (_generatePieces columns rows size reveal shapeAt)
            assist size columns rows).map (fun h => h.key)).Nodup := by
  refine ⟨?_, ?_, ?_, ?_⟩
  · intro p hp
    obtain ⟨i, rfl⟩ := mem_generatePieces columns rows size reveal shapeAt p hp
    exact ⟨Nat.le_add_left _ _, Nat.le_add_left _ _⟩
  · intro h hm
    have hco : h.coordinates ∈ colHintCoords columns := by
      rw [← colHints_map_coordinates
        (_generatePieces columns rows size reveal shapeAt) assist size columns]
      exact List.mem_map_of_mem _ hm
    have hb := mem_colHintCoords columns h.coordinates hco
    exact ⟨hb.1, hb.2.2⟩
  · intro h hm
    have hco : h.coordinates ∈ rowHintCoords rows := by
      rw [← rowHints_map_coordinates
        (_generatePieces columns rows size reveal shapeAt) assist size rows]
      exact List.mem_map_of_mem _ hm
    have hb := mem_rowHintCoords rows h.coordinates hco
    exact ⟨hb.1, hb.2.1⟩
  · have hkeys : (_generatePieces columns rows size reveal shapeAt).map (fun p => p.key)
        ++ (generateHints (_generatePieces columns rows size reveal shapeAt)
              assist size columns rows).map (fun h => h.key)
        = ((List.range (columns * rows)).map (pieceCoord columns)
            ++ (colHintCoords columns ++ rowHintCoords rows)).map
            stringifyCoordinates := by
      rw [List.map_append, List.map_append]
      congr 1
      · rw [generatePieces_map_key, List.map_map]
        rfl
      · rw [generateHints, List.map_append, colHints_map_key, rowHints_map_key]
    rw [hkeys]
    exact List.Nodup.map stringifyCoordinates_injective (allCoords_nodup columns rows)

/-! C5: the two restricted click policies -/

/-- Spec-side successor in the full cyclic order
`[empty, circle, square, triangle]` (wrapping back to empty). -/
def cycleNext : SelectableValues → SelectableValues
  | none => some Shape.circle
  | some Shape.circle => some Shape.square
  | some Shape.square => some Shape.triangle
  | some Shape.triangle => none

/-- Spec-side successor of the second variant: empty takes the first
shape, and shapes rotate among themselves (never back to empty). -/
def rotateNext : SelectableValues → SelectableValues
  | none => some Shape.circle
  | some Shape.circle => some Shape.square
  | some Shape.square => some Shape.triangle
  | some Shape.triangle => some Shape.circle

/-- A concrete unrevealed piece at the first puzzle cell, as
`_generatePieces 1 1` would produce it with an all-hidden, all-circle
random source. -/
def demoPiece : PuzzlePiece :=
  makePiece 1 70 (fun _ => false) (fun _ => Shape.circle) 0

/-- C5 counterexample: in the second restricted variant (lines 432–448),
four clicks on an unrevealed piece that starts empty end at the first
shape, not back at empty — the claimed `[empty, shape1, ..., shapeN]`
wrap-around fails there. -/
theorem c5_counterexample :
    (handleClickRestrictedRotate [demoPiece] demoPiece.key >>= fun l1 =>
      handleClickRestrictedRotate l1 demoPiece.key >>= fun l2 =>
        handleClickRestrictedRotate l2 demoPiece.key >>= fun l3 =>
          handleClickRestrictedRotate l3 demoPiece.key)
        = some [{ demoPiece with selectedValue := some Shape.circle }] ∧
      (handleClickRestrictedRotate [demoPiece] demoPiece.key >>= fun l1 =>
        handleClickRestrictedRotate l1 demoPiece.key >>= fun l2 =>
          handleClickRestrictedRotate l2 demoPiece.key >>= fun l3 =>
            handleClickRestrictedRotate l3 demoPiece.key)
        ≠ some [demoPiece] := by
  refine ⟨rfl, ?_⟩
  decide

/-- C5 (amended) -- in both restricted variants a click on a revealed
piece is a no-op; on an unrevealed piece the third variant advances the
selection by `cycleNext` (the full `[empty, shape1, ..., shapeN]` cycle,
whose fourth step returns to empty), while the second variant advances it
by `rotateNext`, which never yields empty again. -/
theorem c5_restricted_click_policies (pieces : List PuzzlePiece) (uid : String)
    (piece : PuzzlePiece)
    (hfind : pieces.find? (fun p => p.key == uid) = some piece) :
    (piece.revealed = true →
      handleClickRestrictedRotate pieces uid = some pieces ∧
      handleClickRestrictedCycle pieces uid = some pieces) ∧
    (piece.revealed = false →
      handleClickRestrictedCycle pieces uid
        = some (updateFirst pieces uid fun p =>
            { p with selectedValue := cycleNext piece.selectedValue }) ∧
      handleClickRestrictedRotate pieces uid
        = some (updateFirst pieces uid fun p =>
            { p with selectedValue := rotateNext piece.selectedValue })) ∧
    (∀ v : SelectableValues, cycleNext (cycleNext (cycleNext (cycleNext v))) = v) ∧
    (∀ v : SelectableValues, rotateNext v ≠ none) := by
  refine ⟨?_, ?_, ?_, ?_⟩
  · intro hrev
    constructor
    · rw [handleClickRestrictedRotate, hfind]
      simp [hrev]
    · rw [handleClickRestrictedCycle, hfind]
      simp [hrev]
  · intro hrev
    constructor
    · rw [handleClickRestrictedCycle, hfind]
      simp only [hrev, Bool.false_eq_true, if_neg, not_false_iff]
      rcases hv : piece.selectedValue with _ | sh
      · rfl
      · cases sh <;> rfl
    · rw [handleClickRestrictedRotate, hfind]
      simp only [hrev, Bool.false_eq_true, if_neg, not_false_iff]
      rcases hv : piece.selectedValue with _ | sh
      · rfl
      · cases sh <;> rfl
  · intro v
    rcases v with _ | sh
    · rfl
    · cases sh <;> rfl
  · intro v
    rcases v with _ | sh
    · simp [rotateNext]
    · cases sh <;> simp [rotateNext]

/-- C5 witness: the amended theorem applied to the singleton board holding
the concrete unrevealed piece. -/
theorem c5_witness :
    (demoPiece.revealed = true →
      handleClickRestrictedRotate [demoPiece] demoPiece.key = some [demoPiece] ∧
      handleClickRestrictedCycle [demoPiece] demoPiece.key = some [demoPiece]) ∧
    (demoPiece.revealed = false →
      handleClickRestrictedCycle [demoPiece] demoPiece.key
        = some (updateFirst [demoPiece] demoPiece.key fun p =>
            { p with selectedValue := cycleNext demoPiece.selectedValue }) ∧
      handleClickRestrictedRotate [demoPiece] demoPiece.key
        = some (updateFirst [demoPiece] demoPiece.key fun p =>
            { p with selectedValue := rotateNext demoPiece.selectedValue })) ∧
    (∀ v : SelectableValues, cycleNext (cycleNext (cycleNext (cycleNext v))) = v) ∧
    (∀ v : SelectableValues, rotateNext v ≠ none) :=
  c5_restricted_click_policies [demoPiece] demoPiece.key demoPiece rfl

/-! C6: clicking a key that matches no piece -/

/-- C6 counterexample: in the assisted variant, a click whose key matches
no piece is not a silent no-op: the unguarded destructuring of the failed
lookup aborts the handler (a JS `TypeError`, modelled as `none`), so the
handler does not return the unchanged collection. -/
theorem c6_counterexample :
    handleClickUnrestricted [demoPiece] "[9,9]" = none ∧
      handleClickUnrestricted [demoPiece] "[9,9]" ≠ some [demoPiece] := by
  refine ⟨rfl, ?_⟩
  decide

/-- C6 (amended) -- in all three variants, a click whose key matches no
piece reaches the unguarded field access on the result of the failed
`find` and aborts with a `TypeError` (modelled as `none`); no variant
treats the miss as a silent no-op, and the piece collection itself is
never rewritten by such an aborted call. -/
theorem c6_missing_key_aborts (pieces : List PuzzlePiece) (uid : String)
    (hmiss : pieces.find? (fun p => p.key == uid) = none) :
    handleClickUnrestricted pieces uid = none ∧
    handleClickRestrictedRotate pieces uid = none ∧
    handleClickRestrictedCycle pieces uid = none := by
  refine ⟨?_, ?_, ?_⟩
  · rw [handleClickUnrestricted, hmiss]
  · rw [handleClickRestrictedRotate, hmiss]
  · rw [handleClickRestrictedCycle, hmiss]

/-- C6 witness: the amended theorem applied to a concrete board and a key
outside it. -/
theorem c6_witness :
    handleClickUnrestricted [demoPiece] "[7,7]" = none ∧
    handleClickRestrictedRotate [demoPiece] "[7,7]" = none ∧
    handleClickRestrictedCycle [demoPiece] "[7,7]" = none :=
  c6_missing_key_aborts [demoPiece] "[7,7]" rfl

/-! C9: the dimension setters coerce with Number(), not to integers -/

/-- C9 counterexample: assigning the non-integer numeric value `5/2`
(JS `2.5`) to `columns` stores `5/2` itself — denominator 2, not an
integer — so no integer coercion happens before use. -/
theorem c9_counterexample :
    ((setColumns ⟨3, 3⟩ (mkRat 5 2))._columns).den = 2 ∧
      ((setColumns ⟨3, 3⟩ (mkRat 5 2))._columns).den ≠ 1 := by
  refine ⟨?_, ?_⟩ <;> decide

/-- C9 (amended) -- the `columns`/`rows` setters store `Number(val)`,
which for a numeric input is the input itself: the stored dimension is an
integer iff the input already was one; non-integer numeric inputs are kept
as-is (no truncation to an integer happens before `generatePieces` or
`generateHints` read the fields). -/
theorem c9_setters_store_number_unchanged :
    ∀ (st : ContainerDims) (val : Rat),
      (setColumns st val)._columns = val ∧
      (setRows st val)._rows = val ∧
      (((setColumns st val)._columns).den = 1 ↔ val.den = 1) ∧
      (((setRows st val)._rows).den = 1 ↔ val.den = 1) :=
  fun _ _ => ⟨rfl, rfl, Iff.rfl, Iff.rfl⟩
